import Mathlib

/-!
Verification of the docker-manager repository against its natural-language
specification.  The Go source is shallowly embedded: Go strings are Lean
`String`s, Go byte-wise string comparison is re-implemented over the
underlying character lists (UTF-8 byte order coincides with code-point
order), Go `int`/`int64` become `Int`/`Nat` (the values involved are far
below the 64-bit overflow boundary, which is therefore not modelled), and
Go `float64` is modelled as exact rational arithmetic `ℚ`.  File reads and
daemon calls are modelled as explicit `Option`/`Except` inputs.
-/

namespace DockerManager

/-! ## Go string primitives

These re-implement, over `String.data`, the handful of `strings` /
`strconv` library operations the repository uses, so that every definition
evaluates inside the kernel. -/

/-- Splits a character list at every character recognised by `p`, keeping
empty chunks; this is the splitting scheme of Go's `strings.Split` (with
`p` matching the separator) and, after discarding empty chunks, of
`strings.Fields`. -/
def chunksBy (p : Char → Bool) : List Char → List (List Char)
  | [] => [[]]
  | c :: cs =>
    let r := chunksBy p cs
    if p c then [] :: r
    else
      match r with
      | [] => [[c]]
      | h :: t => (c :: h) :: t

/-- Go `strings.Fields`: splits around runs of whitespace, dropping empty
pieces.  (`Char.isWhitespace` covers the ASCII whitespace that appears in
`systemctl` and `/proc` output.) -/
def goFields (s : String) : List String :=
  ((chunksBy (fun c => c.isWhitespace) s.data).filter (fun w => !w.isEmpty)).map String.mk

/-- Go `strings.Split(s, "\n")`. -/
def goLines (s : String) : List String :=
  (chunksBy (fun c => c = '\n') s.data).map String.mk

/-- Go `strings.Split(s, " ")`. -/
def goSplitSpace (s : String) : List String :=
  (chunksBy (fun c => c = ' ') s.data).map String.mk

/-- Go `strings.TrimSpace`. -/
def goTrim (s : String) : String :=
  String.mk (((s.data.dropWhile (fun c => c.isWhitespace)).reverse.dropWhile
    (fun c => c.isWhitespace)).reverse)

/-- Go byte-wise lexicographic `<` on strings, at the character-list level.
UTF-8 encodes larger code points as byte-wise larger sequences, so
comparing characters is faithful to Go's byte comparison. -/
def lexLt : List Char → List Char → Bool
  | _, [] => false
  | [], _ :: _ => true
  | a :: as, b :: bs =>
    if a < b then true
    else if b < a then false
    else lexLt as bs

/-- Go `<` on strings. -/
def goStringLt (a b : String) : Bool :=
  lexLt a.data b.data

/-- Go `strings.HasPrefix`. -/
def goHasPre (p s : String) : Bool :=
  p.data.isPrefixOf s.data

/-- Go `strings.TrimSuffix(u, ".service")` as used for service names. -/
def trimDotService (u : String) : String :=
  if (".service".data).isSuffixOf u.data then
    String.mk (u.data.take (u.data.length - 8))
  else u

/-- Digit-list to number. -/
def digitsToNat (l : List Char) : Nat :=
  l.foldl (fun n c => n * 10 + (c.toNat - 48)) 0

/-- Parses a non-empty all-digit character list. -/
def parseNatChars (l : List Char) : Option Nat :=
  if !l.isEmpty && l.all (fun c => c.isDigit) then some (digitsToNat l) else none

/-- Go `strconv.ParseInt(s, 10, 64)`; the int64 range check is not
modelled (all values in play are tiny). -/
def goParseInt (s : String) : Option Int :=
  match s.data with
  | '-' :: rest => (parseNatChars rest).map (fun n => -(n : Int))
  | '+' :: rest => (parseNatChars rest).map (fun n => (n : Int))
  | l => (parseNatChars l).map (fun n => (n : Int))

/-- Go `strconv.ParseFloat(s, 64)` for the plain decimal forms that occur
in `/proc` files; `float64` values are modelled as exact rationals. -/
def goParseFloat (s : String) : Option ℚ :=
  let core : List Char → Option ℚ := fun l =>
    match chunksBy (fun c => c = '.') l with
    | [ip] => (parseNatChars ip).map (fun n => (n : ℚ))
    | [ip, fp] =>
      match parseNatChars ip, parseNatChars fp with
      | some ni, some nf => some ((ni : ℚ) + (nf : ℚ) / (10 : ℚ) ^ fp.length)
      | _, _ => none
    | _ => none
  match s.data with
  | '-' :: rest => (core rest).map (fun q => -q)
  | '+' :: rest => core rest
  | l => core l

/-! ## Docker facade: `GetSystemStats` (src/internal/service/docker.go) -/

/-- The slice of `types.Container` that `GetSystemStats` actually reads. -/
structure ContainerRec where
  State : String
deriving DecidableEq

/-- The slice of `types.ImageSummary` that `GetSystemStats` reads. -/
structure ImageRec where
  Size : Int
deriving DecidableEq

/-- `models.SystemStats.Containers`. -/
structure ContainerCounts where
  Running : Nat
  Paused : Nat
  Stopped : Nat
  Total : Nat
deriving DecidableEq

/-- `models.SystemStats`. -/
structure SystemStats where
  Containers : ContainerCounts
  ImagesTotal : Int
  ImagesSize : Int
  NetworksTotal : Nat
  VolumesTotal : Nat
deriving DecidableEq

/-- One iteration of the container-partition loop in `GetSystemStats`:
`switch container.State { case "running": …; case "paused": …; default: … }`. -/
def countStep (acc : ContainerCounts) (c : ContainerRec) : ContainerCounts :=
  if c.State = "running" then { acc with Running := acc.Running + 1 }
  else if c.State = "paused" then { acc with Paused := acc.Paused + 1 }
  else { acc with Stopped := acc.Stopped + 1 }

/-- `service.GetSystemStats`, given the four lists the daemon returned
(the error paths simply propagate the daemon error and are handled at the
gateway, see `GetContainersHandler`). -/
def GetSystemStats (containers : List ContainerRec) (images : List ImageRec)
    (networks volumes : Nat) : SystemStats :=
  { Containers := containers.foldl countStep
      { Running := 0, Paused := 0, Stopped := 0, Total := containers.length },
    ImagesTotal := (images.length : Int),
    ImagesSize := images.foldl (fun s i => s + i.Size) 0,
    NetworksTotal := networks,
    VolumesTotal := volumes }

lemma countStep_foldl (cs : List ContainerRec) (acc : ContainerCounts) :
    (cs.foldl countStep acc).Running
        = acc.Running + cs.countP (fun c => c.State == "running") ∧
    (cs.foldl countStep acc).Paused
        = acc.Paused + cs.countP (fun c => c.State == "paused") ∧
    (cs.foldl countStep acc).Stopped
        = acc.Stopped + cs.countP (fun c => !(c.State == "running") && !(c.State == "paused")) ∧
    (cs.foldl countStep acc).Total = acc.Total := by
  induction cs generalizing acc with
  | nil => simp
  | cons c cs ih =>
    obtain ⟨h1, h2, h3, h4⟩ := ih (countStep acc c)
    simp only [List.foldl_cons, List.countP_cons]
    rw [h1, h2, h3, h4]
    by_cases hr : c.State = "running"
    · have hp : c.State ≠ "paused" := by simp [hr]
      simp [countStep, hr, hp]
      omega
    · by_cases hp : c.State = "paused"
      · simp [countStep, hr, hp]
        omega
      · simp [countStep, hr, hp]
        omega

lemma countP_state_partition (cs : List ContainerRec) :
    cs.countP (fun c => c.State == "running")
      + cs.countP (fun c => c.State == "paused")
      + cs.countP (fun c => !(c.State == "running") && !(c.State == "paused"))
      = cs.length := by
  induction cs with
  | nil => simp
  | cons c cs ih =>
    by_cases hr : c.State = "running"
    · simp [List.countP_cons, hr]
      omega
    · by_cases hp : c.State = "paused"
      · simp [List.countP_cons, hr, hp]
        omega
      · simp [List.countP_cons, hr, hp]
        omega

/-- C1: `GetSystemStats` counts each container whose state string is
`"running"` in `Containers.Running`, each `"paused"` one in
`Containers.Paused`, every other container exactly once in
`Containers.Stopped`, and `Running + Paused + Stopped = Total` where
`Total` is the length of the daemon's container list. -/
theorem C1_system_stats_partition (containers : List ContainerRec)
    (images : List ImageRec) (networks volumes : Nat) :
    ((GetSystemStats containers images networks volumes).Containers.Running
        = containers.countP (fun c => c.State == "running")) ∧
    ((GetSystemStats containers images networks volumes).Containers.Paused
        = containers.countP (fun c => c.State == "paused")) ∧
    ((GetSystemStats containers images networks volumes).Containers.Stopped
        = containers.countP (fun c => !(c.State == "running") && !(c.State == "paused"))) ∧
    ((GetSystemStats containers images networks volumes).Containers.Running
        + (GetSystemStats containers images networks volumes).Containers.Paused
        + (GetSystemStats containers images networks volumes).Containers.Stopped
        = (GetSystemStats containers images networks volumes).Containers.Total) ∧
    ((GetSystemStats containers images networks volumes).Containers.Total
        = containers.length) := by
  obtain ⟨h1, h2, h3, h4⟩ := countStep_foldl containers
    { Running := 0, Paused := 0, Stopped := 0, Total := containers.length }
  have g1 : (GetSystemStats containers images networks volumes).Containers.Running
      = containers.countP (fun c => c.State == "running") := by
    simpa [GetSystemStats] using h1
  have g2 : (GetSystemStats containers images networks volumes).Containers.Paused
      = containers.countP (fun c => c.State == "paused") := by
    simpa [GetSystemStats] using h2
  have g3 : (GetSystemStats containers images networks volumes).Containers.Stopped
      = containers.countP (fun c => !(c.State == "running") && !(c.State == "paused")) := by
    simpa [GetSystemStats] using h3
  have g4 : (GetSystemStats containers images networks volumes).Containers.Total
      = containers.length := by
    simpa [GetSystemStats] using h4
  refine ⟨g1, g2, g3, ?_, g4⟩
  rw [g1, g2, g3, g4, countP_state_partition]

/-! ## Order facts about the Go string comparison -/

lemma lexLt_irrefl (x : List Char) : lexLt x x = false := by
  induction x with
  | nil => rfl
  | cons a as ih => simp [lexLt, ih]

lemma lexLt_asymm (x : List Char) : ∀ y, lexLt x y = true → lexLt y x = false := by
  induction x with
  | nil =>
    intro y h
    cases y with
    | nil => simp [lexLt] at h
    | cons b bs => simp [lexLt]
  | cons a as ih =>
    intro y h
    cases y with
    | nil => simp [lexLt] at h
    | cons b bs =>
      simp only [lexLt] at h ⊢
      by_cases hab : a < b
      · have hba : ¬ b < a := lt_asymm hab
        simp [hab, hba]
      · by_cases hba : b < a
        · simp [hab, hba] at h
        · simp only [hab, hba, if_false] at h ⊢
          simpa using ih bs (by simpa using h)

lemma lexLt_antisym_eq (x : List Char) :
    ∀ y, lexLt x y = false → lexLt y x = false → x = y := by
  induction x with
  | nil =>
    intro y h1 _
    cases y with
    | nil => rfl
    | cons b bs => simp [lexLt] at h1
  | cons a as ih =>
    intro y h1 h2
    cases y with
    | nil => simp [lexLt] at h2
    | cons b bs =>
      simp only [lexLt] at h1 h2
      by_cases hab : a < b
      · simp [hab] at h1
      · by_cases hba : b < a
        · simp [hba, lt_asymm hba] at h2
        · have hc : a = b := le_antisymm (not_lt.mp hba) (not_lt.mp hab)
          have ht : as = bs := by
            apply ih bs
            · simpa [hab, hba] using h1
            · simpa [hab, hba, hc] using h2
          rw [hc, ht]

lemma lexLt_negtrans (x : List Char) :
    ∀ y z, lexLt y x = false → lexLt z y = false → lexLt z x = false := by
  induction x with
  | nil =>
    intro y z _ _
    cases z <;> simp [lexLt]
  | cons a as ih =>
    intro y z h1 h2
    cases y with
    | nil => simp [lexLt] at h1
    | cons b bs =>
      cases z with
      | nil => simp [lexLt] at h2
      | cons c cs =>
        simp only [lexLt] at h1 h2 ⊢
        by_cases hba : b < a
        · simp [hba] at h1
        · by_cases hcb : c < b
          · simp [hcb] at h2
          · have hab : a ≤ b := not_lt.mp hba
            have hbc : b ≤ c := not_lt.mp hcb
            have hca : ¬ c < a := not_lt.mpr (hab.trans hbc)
            by_cases hac : a < c
            · simp [hca, hac]
            · have hac' : a = c := le_antisymm (hab.trans hbc) (not_lt.mp hac)
              have hb1 : a = b := le_antisymm hab (hac' ▸ hbc)
              have h1' : lexLt bs as = false := by
                have hnab : ¬ a < b := by rw [hb1]; exact lt_irrefl b
                rw [if_neg hba, if_neg hnab] at h1
                exact h1
              have h2' : lexLt cs bs = false := by
                have hbc1 : b = c := hb1.symm.trans hac'
                have hnbc : ¬ b < c := by rw [hbc1]; exact lt_irrefl c
                rw [if_neg hcb, if_neg hnbc] at h2
                exact h2
              rw [if_neg hca, if_neg hac]
              exact ih bs cs h1' h2'

/-! ## Service control shim: `GetSystemdServices`
(src/internal/models/types.go, `service` package half) -/

/-- `models.SystemdService`, restricted to the fields the list parser and
its sort actually populate (the remaining fields — Type, MainPID, Memory,
Tasks — are only filled by the detail endpoint and stay at their zero
value `""` here). -/
structure SystemdService where
  Name : String
  LoadState : String
  ActiveState : String
  SubState : String
  Description : String
  Unit : String
deriving DecidableEq

/-- The comparator closure passed to `sort.Slice` in `GetSystemdServices`:
running units first, then by `SubState`, then by `Name`. -/
def serviceLess (a b : SystemdService) : Bool :=
  if a.SubState = "running" ∧ b.SubState ≠ "running" then true
  else if a.SubState ≠ "running" ∧ b.SubState = "running" then false
  else if a.SubState = b.SubState then goStringLt a.Name b.Name
  else goStringLt a.SubState b.SubState

lemma goStringLt_asymm {s t : String} (h : goStringLt s t = true) :
    goStringLt t s = false :=
  lexLt_asymm _ _ h

lemma goStringLt_negtrans {s t u : String}
    (h1 : goStringLt t s = false) (h2 : goStringLt u t = false) :
    goStringLt u s = false :=
  lexLt_negtrans _ _ _ h1 h2

lemma goStringLt_antisym_eq {s t : String}
    (h1 : goStringLt s t = false) (h2 : goStringLt t s = false) : s = t :=
  String.ext (lexLt_antisym_eq _ _ h1 h2)

lemma serviceLess_asymm {a b : SystemdService} (h : serviceLess a b = true) :
    serviceLess b a = false := by
  by_cases hra : a.SubState = "running" <;> by_cases hrb : b.SubState = "running"
  · have hab : a.SubState = b.SubState := hra.trans hrb.symm
    have h' : goStringLt a.Name b.Name = true := by
      simpa [serviceLess, hra, hrb, hab] using h
    simpa [serviceLess, hra, hrb, hab.symm] using goStringLt_asymm h'
  · simp [serviceLess, hra, hrb]
  · simp [serviceLess, hra, hrb] at h
  · by_cases hab : a.SubState = b.SubState
    · have h' : goStringLt a.Name b.Name = true := by
        simpa [serviceLess, hra, hrb, hab] using h
      simpa [serviceLess, hra, hrb, hab.symm] using goStringLt_asymm h'
    · have hba : b.SubState ≠ a.SubState := fun e => hab e.symm
      have h' : goStringLt a.SubState b.SubState = true := by
        simpa [serviceLess, hra, hrb, hab] using h
      simpa [serviceLess, hra, hrb, hba] using goStringLt_asymm h'

lemma serviceLess_false_elim {x y : SystemdService} (h : serviceLess x y = false) :
    ¬ (x.SubState = "running" ∧ y.SubState ≠ "running") := by
  intro hc
  simp [serviceLess, hc.1, hc.2] at h

/-- On a pair where neither or both sub_states are `"running"`, a false
comparator result gives the lexicographic facts of the final two branches. -/
lemma serviceLess_false_lex {x y : SystemdService} (h : serviceLess x y = false)
    (hr : x.SubState = "running" ↔ y.SubState = "running") :
    (x.SubState = y.SubState → goStringLt x.Name y.Name = false) ∧
    (x.SubState ≠ y.SubState → goStringLt x.SubState y.SubState = false) := by
  constructor
  · intro hxy
    by_cases hrx : x.SubState = "running"
    · simpa [serviceLess, hrx, hr.mp hrx, hxy] using h
    · simpa [serviceLess, hrx, fun e => hrx (hr.mpr e), hxy] using h
  · intro hxy
    by_cases hrx : x.SubState = "running"
    · exact absurd (hrx.trans (hr.mp hrx).symm) hxy
    · have hry : y.SubState ≠ "running" := fun e => hrx (hr.mpr e)
      simpa [serviceLess, hrx, hry, hxy] using h

lemma serviceLess_negtrans {a b c : SystemdService}
    (h1 : serviceLess b a = false) (h2 : serviceLess c b = false) :
    serviceLess c a = false := by
  by_cases hra : a.SubState = "running" <;> by_cases hrb : b.SubState = "running" <;>
    by_cases hrc : c.SubState = "running"
  -- a, b, c all running: compare names
  · have hba : b.SubState = a.SubState := hrb.trans hra.symm
    have hcb : c.SubState = b.SubState := hrc.trans hrb.symm
    have hca : c.SubState = a.SubState := hrc.trans hra.symm
    have n1 := (serviceLess_false_lex h1 (by simp [hra, hrb])).1 hba
    have n2 := (serviceLess_false_lex h2 (by simp [hrb, hrc])).1 hcb
    simpa [serviceLess, hrc, hra, hca] using goStringLt_negtrans n1 n2
  -- a, b running, c not: goal hits the second branch
  · simp [serviceLess, hra, hrc]
  -- a, c running, b not: h2 is a contradiction
  · exact absurd ⟨hrc, hrb⟩ (serviceLess_false_elim h2)
  -- a running, b c not: goal hits the second branch
  · simp [serviceLess, hra, hrc]
  -- b, c running, a not: h1 is a contradiction
  · exact absurd ⟨hrb, hra⟩ (serviceLess_false_elim h1)
  -- b running, a c not: h1 is a contradiction
  · exact absurd ⟨hrb, hra⟩ (serviceLess_false_elim h1)
  -- c running, a b not: h2 is a contradiction
  · exact absurd ⟨hrc, hrb⟩ (serviceLess_false_elim h2)
  -- none running: lexicographic reasoning on sub_state then name
  · have l1 := serviceLess_false_lex h1 (by simp [hra, hrb])
    have l2 := serviceLess_false_lex h2 (by simp [hrb, hrc])
    by_cases hba : b.SubState = a.SubState <;> by_cases hcb : c.SubState = b.SubState
    · have hca : c.SubState = a.SubState := hcb.trans hba
      have n1 := l1.1 hba
      have n2 := l2.1 hcb
      simpa [serviceLess, hrc, hra, hca] using goStringLt_negtrans n1 n2
    · have hca : c.SubState ≠ a.SubState := fun e => hcb (e.trans hba.symm)
      have n2 := l2.2 hcb
      have hfin : goStringLt c.SubState a.SubState = false := by
        rw [← hba]; exact n2
      simpa [serviceLess, hrc, hra, hca] using hfin
    · have hca : c.SubState ≠ a.SubState := fun e => hba (hcb.symm.trans e)
      have n1 := l1.2 hba
      have hfin : goStringLt c.SubState a.SubState = false := by
        rw [hcb]; exact n1
      simpa [serviceLess, hrc, hra, hca] using hfin
    · have n1 := l1.2 hba
      have n2 := l2.2 hcb
      by_cases hca : c.SubState = a.SubState
      · exact absurd (goStringLt_antisym_eq n1 (hca ▸ n2)) hba
      · simpa [serviceLess, hrc, hra, hca] using goStringLt_negtrans n1 n2

/-- Insertion step of the sort in `GetSystemdServices`.  `sort.Slice`
guarantees (only) that the slice ends up ordered by the comparator; this
stable insertion sort produces such an ordering, and every property proved
below depends only on the output being a `serviceLess`-ordered permutation
of the input, which `sort.Slice` guarantees as well. -/
def insertSvc (x : SystemdService) : List SystemdService → List SystemdService
  | [] => [x]
  | y :: ys => if serviceLess y x then y :: insertSvc x ys else x :: y :: ys

/-- The sort applied to parsed services in `GetSystemdServices`. -/
def sortServices (l : List SystemdService) : List SystemdService :=
  l.foldr insertSvc []

lemma insertSvc_perm (x : SystemdService) (l : List SystemdService) :
    (insertSvc x l).Perm (x :: l) := by
  induction l with
  | nil => exact List.Perm.refl _
  | cons y ys ih =>
    by_cases h : serviceLess y x
    · simpa [insertSvc, h] using (ih.cons y).trans (List.Perm.swap x y ys)
    · simp [insertSvc, h]

lemma sortServices_perm (l : List SystemdService) : (sortServices l).Perm l := by
  induction l with
  | nil => exact List.Perm.refl _
  | cons c cs ih =>
    have : sortServices (c :: cs) = insertSvc c (sortServices cs) := rfl
    rw [this]
    exact (insertSvc_perm c (sortServices cs)).trans (ih.cons c)

lemma pairwise_insertSvc (x : SystemdService) (l : List SystemdService)
    (h : l.Pairwise (fun u v => serviceLess v u = false)) :
    (insertSvc x l).Pairwise (fun u v => serviceLess v u = false) := by
  induction l with
  | nil => simp [insertSvc]
  | cons y ys ih =>
    rcases List.pairwise_cons.mp h with ⟨hy, hys⟩
    by_cases hle : serviceLess y x
    · rw [insertSvc, if_pos hle]
      refine List.pairwise_cons.mpr ⟨?_, ih hys⟩
      intro z hz
      rcases List.mem_cons.mp ((insertSvc_perm x ys).mem_iff.mp hz) with hz1 | hz1
      · rw [hz1]; exact serviceLess_asymm hle
      · exact hy z hz1
    · rw [insertSvc, if_neg hle]
      refine List.pairwise_cons.mpr ⟨?_, h⟩
      intro z hz
      rcases List.mem_cons.mp hz with hz1 | hz1
      · rw [hz1]; exact Bool.eq_false_iff.mpr hle
      · exact serviceLess_negtrans (Bool.eq_false_iff.mpr hle) (hy z hz1)

lemma sorted_sortServices (l : List SystemdService) :
    (sortServices l).Pairwise (fun u v => serviceLess v u = false) := by
  induction l with
  | nil => simp [sortServices]
  | cons c cs ih => exact pairwise_insertSvc c (sortServices cs) ih

/-- From a false comparator result, the three ordering facts of the sort. -/
lemma of_serviceLess_false {x y : SystemdService} (h : serviceLess y x = false) :
    (y.SubState = "running" → x.SubState = "running") ∧
    ((x.SubState = "running" ↔ y.SubState = "running") →
        goStringLt y.SubState x.SubState = false) ∧
    (x.SubState = y.SubState → goStringLt y.Name x.Name = false) := by
  refine ⟨?_, ?_, ?_⟩
  · intro hy
    by_contra hx
    exact serviceLess_false_elim h ⟨hy, hx⟩
  · intro hr
    by_cases hxy : y.SubState = x.SubState
    · rw [hxy]
      exact lexLt_irrefl _
    · exact (serviceLess_false_lex h (Iff.symm hr)).2 hxy
  · intro hxy
    have hr : y.SubState = "running" ↔ x.SubState = "running" := by rw [hxy]
    exact (serviceLess_false_lex h hr).1 hxy.symm

/-- The concrete unit list of the spec's determinism example. -/
def svcExB : SystemdService :=
  { Name := "b", LoadState := "loaded", ActiveState := "inactive",
    SubState := "exited", Description := "", Unit := "b.service" }

/-- Second unit of the example. -/
def svcExA : SystemdService :=
  { Name := "a", LoadState := "loaded", ActiveState := "active",
    SubState := "running", Description := "", Unit := "a.service" }

/-- Third unit of the example. -/
def svcExC : SystemdService :=
  { Name := "c", LoadState := "loaded", ActiveState := "inactive",
    SubState := "exited", Description := "", Unit := "c.service" }

/-- C2: the sort of `GetSystemdServices` yields a permutation of its input
in which every `"running"` service precedes every non-`"running"` one,
services tied on that partition are ordered by byte-lexicographic
`sub_state`, services with equal `sub_state` are ordered by name, and —
the sort being a function — the same input always yields the same output;
on the spec's example `[b(exited), a(running), c(exited)]` the result is
`[a, b, c]`. -/
theorem C2_service_sort_order (l : List SystemdService) :
    ((sortServices l).Perm l) ∧
    (∀ i j : Fin (sortServices l).length, i < j →
      (((sortServices l).get j).SubState = "running" →
          ((sortServices l).get i).SubState = "running") ∧
      ((((sortServices l).get i).SubState = "running" ↔
            ((sortServices l).get j).SubState = "running") →
          goStringLt ((sortServices l).get j).SubState
            ((sortServices l).get i).SubState = false) ∧
      (((sortServices l).get i).SubState = ((sortServices l).get j).SubState →
          goStringLt ((sortServices l).get j).Name
            ((sortServices l).get i).Name = false)) ∧
    (sortServices [svcExB, svcExA, svcExC] = [svcExA, svcExB, svcExC]) := by
  refine ⟨sortServices_perm l, ?_, by decide⟩
  intro i j hij
  exact of_serviceLess_false (List.pairwise_iff_get.mp (sorted_sortServices l) i j hij)

/-- Witness for C2 at the example list and index pair (0, 1). -/
theorem C2_service_sort_order_witness :
    (sortServices [svcExB, svcExA, svcExC]).Perm [svcExB, svcExA, svcExC] ∧
    (((sortServices [svcExB, svcExA, svcExC]).get ⟨1, by decide⟩).SubState = "running" →
      ((sortServices [svcExB, svcExA, svcExC]).get ⟨0, by decide⟩).SubState = "running") := by
  obtain ⟨hperm, hord, _⟩ := C2_service_sort_order [svcExB, svcExA, svcExC]
  exact ⟨hperm, (hord ⟨0, by decide⟩ ⟨1, by decide⟩ (by decide)).1⟩

/-- One line of `systemctl list-units` output as parsed by the loop in
`GetSystemdServices`: trim, split into whitespace-separated fields, accept
only lines with at least 4 fields (unit, load, active, sub), and rejoin
everything past the fourth field with single spaces as the description
(`strings.Join(fields[4:], " ")`; for exactly 4 fields the description
stays at its zero value `""`, which coincides with joining the empty
list). -/
def parseUnitLine (line : String) : Option SystemdService :=
  match goFields (goTrim line) with
  | u :: lo :: ac :: su :: rest =>
    some { Unit := u, Name := trimDotService u, LoadState := lo,
           ActiveState := ac, SubState := su,
           Description := String.intercalate " " rest }
  | _ => none

/-- The line scan of `GetSystemdServices` over the raw command output
(empty and short lines contribute nothing). -/
def parseUnits (output : String) : List SystemdService :=
  (goLines output).filterMap parseUnitLine

/-- `service.GetSystemdServices` given the raw `systemctl list-units`
output: parse each line, then sort. -/
def GetSystemdServices (output : String) : List SystemdService :=
  sortServices (parseUnits output)

/-- C3 (amended): a unit line is accepted iff it splits into at least 4
whitespace-separated fields; everything past the fourth field is rejoined
with single spaces as the description — so the description's words are
preserved but irregular spacing between them is collapsed, not preserved
verbatim (see the counterexample). -/
theorem C3_unit_line_parse (line : String) :
    ((parseUnitLine line).isSome = true ↔ 4 ≤ (goFields (goTrim line)).length) ∧
    (∀ s, parseUnitLine line = some s →
      s.Description = String.intercalate " " ((goFields (goTrim line)).drop 4) ∧
      (goFields (goTrim line)).take 4
        = [s.Unit, s.LoadState, s.ActiveState, s.SubState]) := by
  rcases hfs : goFields (goTrim line) with _ | ⟨u, _ | ⟨lo, _ | ⟨ac, _ | ⟨su, rest⟩⟩⟩⟩ <;>
    simp [parseUnitLine, hfs]

/-- C3 counterexample: a description whose words are separated by double
spaces comes back with single spaces — the parse does not preserve the
spacing verbatim.  The field values themselves are as the claim says. -/
theorem C3_description_not_verbatim :
    (parseUnitLine "cron.service loaded active running Regular  background  jobs").map
        SystemdService.Description = some "Regular background jobs" ∧
    ("Regular background jobs" : String) ≠ "Regular  background  jobs" := by
  exact ⟨by decide, by decide⟩

/-- Concrete unit line for the C3 witness. -/
def lineW : String := "ssh.service loaded active running OpenBSD Secure Shell server"

/-- The record `parseUnitLine` produces for `lineW`. -/
def svcW : SystemdService :=
  { Unit := "ssh.service", Name := "ssh", LoadState := "loaded",
    ActiveState := "active", SubState := "running",
    Description := "OpenBSD Secure Shell server" }

/-- Witness for C3 at a concrete well-formed line. -/
theorem C3_unit_line_parse_witness :
    svcW.Description = String.intercalate " " ((goFields (goTrim lineW)).drop 4) ∧
    (goFields (goTrim lineW)).take 4
      = [svcW.Unit, svcW.LoadState, svcW.ActiveState, svcW.SubState] := by
  exact (C3_unit_line_parse lineW).2 svcW (by decide)

/-! ## Host metrics reader: `GetHostSystemInfo`
(src/internal/models/types.go, `service` package half) -/

/-- `models.HostSystemInfo`; `float64` fields are exact rationals. -/
structure HostSystemInfo where
  Uptime : String
  UptimeSeconds : Int
  LoadAverage1 : ℚ
  LoadAverage5 : ℚ
  LoadAverage15 : ℚ
  MemoryTotal : Int
  MemoryUsed : Int
  MemoryAvailable : Int
  MemoryUsedPct : ℚ
  NetworkConnections : Int
  CPUCores : Nat
deriving DecidableEq

/-- The zero-valued record `&models.HostSystemInfo{}` starts from. -/
def hostZero : HostSystemInfo :=
  { Uptime := "", UptimeSeconds := 0, LoadAverage1 := 0, LoadAverage5 := 0,
    LoadAverage15 := 0, MemoryTotal := 0, MemoryUsed := 0,
    MemoryAvailable := 0, MemoryUsedPct := 0, NetworkConnections := 0,
    CPUCores := 0 }

/-- The `/proc` files `GetHostSystemInfo` reads (`none` = read failure)
together with `runtime.NumCPU()`. -/
structure ProcFS where
  uptime : Option String
  loadavg : Option String
  meminfo : Option String
  nettcp : Option String
  numCPU : Nat

/-- Go's `int64(f)` conversion from `float64`: truncation toward zero. -/
def f64toInt64 (q : ℚ) : Int :=
  Int.tdiv q.num (q.den : Int)

/-- `formatUptime` (Go `%d` formatting, truncated division and modulus). -/
def formatUptime (seconds : Int) : String :=
  let days := Int.tdiv seconds 86400
  let hours := Int.tdiv (Int.tmod seconds 86400) 3600
  let minutes := Int.tdiv (Int.tmod seconds 3600) 60
  if 0 < days then
    toString days ++ "d " ++ toString hours ++ "h " ++ toString minutes ++ "m"
  else if 0 < hours then
    toString hours ++ "h " ++ toString minutes ++ "m"
  else
    toString minutes ++ "m"

/-- The `/proc/uptime` block of `GetHostSystemInfo`. -/
def applyUptime (d : Option String) (h : HostSystemInfo) : HostSystemInfo :=
  match d with
  | none => h
  | some data =>
    match goSplitSpace (goTrim data) with
    | [] => h
    | p :: _ =>
      match goParseFloat p with
      | some q =>
        { h with UptimeSeconds := f64toInt64 q,
                 Uptime := formatUptime (f64toInt64 q) }
      | none => h

/-- The `/proc/loadavg` block of `GetHostSystemInfo` (each of the three
tokens is parsed independently and only assigned on success). -/
def applyLoad (d : Option String) (h : HostSystemInfo) : HostSystemInfo :=
  match d with
  | none => h
  | some data =>
    let parts := goSplitSpace (goTrim data)
    if 3 ≤ parts.length then
      let h1 := match goParseFloat (parts.getD 0 "") with
        | some q => { h with LoadAverage1 := q }
        | none => h
      let h2 := match goParseFloat (parts.getD 1 "") with
        | some q => { h1 with LoadAverage5 := q }
        | none => h1
      match goParseFloat (parts.getD 2 "") with
      | some q => { h2 with LoadAverage15 := q }
      | none => h2
    else h

/-- `parts[1]` of a `/proc/meminfo` line, parsed as in the code
(`strings.Fields` + `strconv.ParseInt`). -/
def memFieldValue (line : String) : Option Int :=
  match goFields line with
  | _ :: v :: _ => goParseInt v
  | _ => none

/-- One line of the `/proc/meminfo` scan: a `MemTotal:` line overwrites
the total (already converted to bytes), a `MemAvailable:` line the
available amount; parse failures leave the accumulator unchanged. -/
def memScanLine (acc : Int × Int) (line : String) : Int × Int :=
  if goHasPre "MemTotal:" line then
    match memFieldValue line with
    | some v => (v * 1024, acc.2)
    | none => acc
  else if goHasPre "MemAvailable:" line then
    match memFieldValue line with
    | some v => (acc.1, v * 1024)
    | none => acc
  else acc

/-- The `/proc/meminfo` block of `GetHostSystemInfo`: scan all lines,
then derive `MemoryUsed` and (only for positive totals)
`MemoryUsedPct`. -/
def applyMem (d : Option String) (h : HostSystemInfo) : HostSystemInfo :=
  match d with
  | none => h
  | some data =>
    let p := (goLines data).foldl memScanLine (h.MemoryTotal, h.MemoryAvailable)
    let used := p.1 - p.2
    { h with MemoryTotal := p.1, MemoryAvailable := p.2, MemoryUsed := used,
             MemoryUsedPct :=
               if 0 < p.1 then ((used : ℚ) / (p.1 : ℚ)) * 100
               else h.MemoryUsedPct }

/-- The `/proc/net/tcp` block of `GetHostSystemInfo`: line count minus
two (header and trailing blank), floored at zero. -/
def applyNet (d : Option String) (h : HostSystemInfo) : HostSystemInfo :=
  match d with
  | none => h
  | some data =>
    let n : Int := ((goLines data).length : Int) - 2
    { h with NetworkConnections := if n < 0 then 0 else n }

/-- `service.GetHostSystemInfo`: the four file blocks in order, the CPU
count, and the function's only `return` — `return hostInfo, nil`. -/
def GetHostSystemInfo (fs : ProcFS) : HostSystemInfo × Option String :=
  let h1 := applyUptime fs.uptime hostZero
  let h2 := applyLoad fs.loadavg h1
  let h3 := applyMem fs.meminfo h2
  let h4 := { h3 with CPUCores := fs.numCPU }
  (applyNet fs.nettcp h4, none)

/-- The snapshot component of `GetHostSystemInfo`. -/
def hostRes (fs : ProcFS) : HostSystemInfo :=
  (GetHostSystemInfo fs).1

lemma applyUptime_shape (d : Option String) (h : HostSystemInfo) :
    ∃ u s, applyUptime d h = { h with Uptime := u, UptimeSeconds := s } := by
  cases d with
  | none => exact ⟨h.Uptime, h.UptimeSeconds, rfl⟩
  | some data =>
    rcases hp : goSplitSpace (goTrim data) with _ | ⟨p, ps⟩
    · exact ⟨h.Uptime, h.UptimeSeconds, by simp [applyUptime, hp]⟩
    · rcases hq : goParseFloat p with _ | q
      · exact ⟨h.Uptime, h.UptimeSeconds, by simp [applyUptime, hp, hq]⟩
      · exact ⟨formatUptime (f64toInt64 q), f64toInt64 q, by simp [applyUptime, hp, hq]⟩

lemma applyLoad_shape (d : Option String) (h : HostSystemInfo) :
    ∃ a b c, applyLoad d h
      = { h with LoadAverage1 := a, LoadAverage5 := b, LoadAverage15 := c } := by
  cases d with
  | none => exact ⟨h.LoadAverage1, h.LoadAverage5, h.LoadAverage15, rfl⟩
  | some data =>
    by_cases hl : 3 ≤ (goSplitSpace (goTrim data)).length
    · refine ⟨(goParseFloat ((goSplitSpace (goTrim data))[0]?.getD "")).getD h.LoadAverage1,
        (goParseFloat ((goSplitSpace (goTrim data))[1]?.getD "")).getD h.LoadAverage5,
        (goParseFloat ((goSplitSpace (goTrim data))[2]?.getD "")).getD h.LoadAverage15, ?_⟩
      rcases h0 : goParseFloat ((goSplitSpace (goTrim data))[0]?.getD "") with _ | q0 <;>
        rcases h1 : goParseFloat ((goSplitSpace (goTrim data))[1]?.getD "") with _ | q1 <;>
          rcases h2 : goParseFloat ((goSplitSpace (goTrim data))[2]?.getD "") with _ | q2 <;>
        simp [applyLoad, hl, h0, h1, h2]
    · exact ⟨h.LoadAverage1, h.LoadAverage5, h.LoadAverage15,
        by simp [applyLoad, hl]⟩

lemma applyMem_shape (d : Option String) (h : HostSystemInfo) :
    ∃ t u a p, applyMem d h
      = { h with MemoryTotal := t, MemoryUsed := u, MemoryAvailable := a,
                 MemoryUsedPct := p } := by
  cases d with
  | none => exact ⟨h.MemoryTotal, h.MemoryUsed, h.MemoryAvailable, h.MemoryUsedPct, rfl⟩
  | some data => exact ⟨_, _, _, _, rfl⟩

lemma applyNet_shape (d : Option String) (h : HostSystemInfo) :
    ∃ n, applyNet d h = { h with NetworkConnections := n } := by
  cases d with
  | none => exact ⟨h.NetworkConnections, rfl⟩
  | some data => exact ⟨_, rfl⟩

/-- C5: `GetHostSystemInfo` is best-effort.  With `/proc/net/tcp`
unreadable the snapshot still carries every other sub-field exactly as
with that file readable and reports `NetworkConnections = 0`; and any
unreadable source file leaves its own sub-fields at their zero values. -/
theorem C5_host_snapshot_best_effort (fs : ProcFS) :
    ((hostRes { fs with nettcp := none }).NetworkConnections = 0) ∧
    ((hostRes { fs with nettcp := none }).Uptime = (hostRes fs).Uptime) ∧
    ((hostRes { fs with nettcp := none }).UptimeSeconds = (hostRes fs).UptimeSeconds) ∧
    ((hostRes { fs with nettcp := none }).LoadAverage1 = (hostRes fs).LoadAverage1) ∧
    ((hostRes { fs with nettcp := none }).LoadAverage5 = (hostRes fs).LoadAverage5) ∧
    ((hostRes { fs with nettcp := none }).LoadAverage15 = (hostRes fs).LoadAverage15) ∧
    ((hostRes { fs with nettcp := none }).MemoryTotal = (hostRes fs).MemoryTotal) ∧
    ((hostRes { fs with nettcp := none }).MemoryUsed = (hostRes fs).MemoryUsed) ∧
    ((hostRes { fs with nettcp := none }).MemoryAvailable = (hostRes fs).MemoryAvailable) ∧
    ((hostRes { fs with nettcp := none }).MemoryUsedPct = (hostRes fs).MemoryUsedPct) ∧
    ((hostRes { fs with nettcp := none }).CPUCores = (hostRes fs).CPUCores) ∧
    (fs.uptime = none →
      (hostRes fs).Uptime = "" ∧ (hostRes fs).UptimeSeconds = 0) ∧
    (fs.loadavg = none →
      (hostRes fs).LoadAverage1 = 0 ∧ (hostRes fs).LoadAverage5 = 0 ∧
      (hostRes fs).LoadAverage15 = 0) ∧
    (fs.meminfo = none →
      (hostRes fs).MemoryTotal = 0 ∧ (hostRes fs).MemoryUsed = 0 ∧
      (hostRes fs).MemoryAvailable = 0 ∧ (hostRes fs).MemoryUsedPct = 0) ∧
    (fs.nettcp = none → (hostRes fs).NetworkConnections = 0) := by
  obtain ⟨uu, us, eU⟩ := applyUptime_shape fs.uptime hostZero
  obtain ⟨a1, a5, a15, eL⟩ :=
    applyLoad_shape fs.loadavg (applyUptime fs.uptime hostZero)
  obtain ⟨mt, mu, ma, mp, eM⟩ :=
    applyMem_shape fs.meminfo
      (applyLoad fs.loadavg (applyUptime fs.uptime hostZero))
  obtain ⟨nc, eN⟩ := applyNet_shape fs.nettcp
    { applyMem fs.meminfo (applyLoad fs.loadavg (applyUptime fs.uptime hostZero)) with
        CPUCores := fs.numCPU }
  have R0 : hostRes { fs with nettcp := none }
      = { hostZero with
          Uptime := uu, UptimeSeconds := us, LoadAverage1 := a1,
          LoadAverage5 := a5, LoadAverage15 := a15, MemoryTotal := mt,
          MemoryUsed := mu, MemoryAvailable := ma, MemoryUsedPct := mp,
          CPUCores := fs.numCPU } := by
    show ({ applyMem fs.meminfo (applyLoad fs.loadavg (applyUptime fs.uptime hostZero)) with
        CPUCores := fs.numCPU } : HostSystemInfo) = _
    rw [eM, eL, eU]
  have R1 : hostRes fs
      = { hostZero with
          Uptime := uu, UptimeSeconds := us, LoadAverage1 := a1,
          LoadAverage5 := a5, LoadAverage15 := a15, MemoryTotal := mt,
          MemoryUsed := mu, MemoryAvailable := ma, MemoryUsedPct := mp,
          CPUCores := fs.numCPU, NetworkConnections := nc } := by
    show applyNet fs.nettcp
        { applyMem fs.meminfo (applyLoad fs.loadavg (applyUptime fs.uptime hostZero)) with
            CPUCores := fs.numCPU } = _
    rw [eN, eM, eL, eU]
  refine ⟨by rw [R0]; rfl, by rw [R0, R1], by rw [R0, R1], by rw [R0, R1],
    by rw [R0, R1], by rw [R0, R1], by rw [R0, R1], by rw [R0, R1],
    by rw [R0, R1], by rw [R0, R1], by rw [R0, R1], ?_, ?_, ?_, ?_⟩
  · intro hx
    obtain ⟨c1, c5, c15, fL⟩ := applyLoad_shape fs.loadavg hostZero
    obtain ⟨dt, du, da, dp, fM⟩ :=
      applyMem_shape fs.meminfo (applyLoad fs.loadavg hostZero)
    obtain ⟨n2, fN⟩ := applyNet_shape fs.nettcp
      { applyMem fs.meminfo (applyLoad fs.loadavg hostZero) with CPUCores := fs.numCPU }
    have R2 : hostRes fs
        = { hostZero with
            LoadAverage1 := c1, LoadAverage5 := c5,
            LoadAverage15 := c15, MemoryTotal := dt, MemoryUsed := du,
            MemoryAvailable := da, MemoryUsedPct := dp, CPUCores := fs.numCPU,
            NetworkConnections := n2 } := by
      rw [hostRes, GetHostSystemInfo, hx]
      show applyNet fs.nettcp
          { applyMem fs.meminfo (applyLoad fs.loadavg hostZero) with
              CPUCores := fs.numCPU } = _
      rw [fN, fM, fL]
    rw [R2]
    exact ⟨rfl, rfl⟩
  · intro hx
    obtain ⟨gu, gs, fU⟩ := applyUptime_shape fs.uptime hostZero
    obtain ⟨dt, du, da, dp, fM⟩ :=
      applyMem_shape fs.meminfo (applyUptime fs.uptime hostZero)
    obtain ⟨n2, fN⟩ := applyNet_shape fs.nettcp
      { applyMem fs.meminfo (applyUptime fs.uptime hostZero) with CPUCores := fs.numCPU }
    have R2 : hostRes fs
        = { hostZero with
            Uptime := gu, UptimeSeconds := gs, MemoryTotal := dt,
            MemoryUsed := du, MemoryAvailable := da, MemoryUsedPct := dp,
            CPUCores := fs.numCPU, NetworkConnections := n2 } := by
      rw [hostRes, GetHostSystemInfo, hx]
      show applyNet fs.nettcp
          { applyMem fs.meminfo (applyUptime fs.uptime hostZero) with
              CPUCores := fs.numCPU } = _
      rw [fN, fM, fU]
    rw [R2]
    exact ⟨rfl, rfl, rfl⟩
  · intro hx
    obtain ⟨gu, gs, fU⟩ := applyUptime_shape fs.uptime hostZero
    obtain ⟨c1, c5, c15, fL⟩ :=
      applyLoad_shape fs.loadavg (applyUptime fs.uptime hostZero)
    obtain ⟨n2, fN⟩ := applyNet_shape fs.nettcp
      { applyLoad fs.loadavg (applyUptime fs.uptime hostZero) with CPUCores := fs.numCPU }
    have R2 : hostRes fs
        = { hostZero with
            Uptime := gu, UptimeSeconds := gs, LoadAverage1 := c1,
            LoadAverage5 := c5, LoadAverage15 := c15, CPUCores := fs.numCPU,
            NetworkConnections := n2 } := by
      rw [hostRes, GetHostSystemInfo, hx]
      show applyNet fs.nettcp
          { applyLoad fs.loadavg (applyUptime fs.uptime hostZero) with
              CPUCores := fs.numCPU } = _
      rw [fN, fL, fU]
    rw [R2]
    exact ⟨rfl, rfl, rfl, rfl⟩
  · intro hx
    rw [hostRes, GetHostSystemInfo, hx]
    show ({ applyMem fs.meminfo (applyLoad fs.loadavg (applyUptime fs.uptime hostZero)) with
        CPUCores := fs.numCPU } : HostSystemInfo).NetworkConnections = 0
    rw [eM, eL, eU]
    rfl

/-- Concrete `/proc` state for the C5 witness: `/proc/meminfo` is
unreadable, the other files are readable. -/
def fsW : ProcFS :=
  { uptime := some "351735.74 1416425.88",
    loadavg := some "0.52 0.58 0.59 1/457 12893",
    meminfo := none, nettcp := some "header\nrow1\nrow2\n", numCPU := 8 }

/-- Witness for C5 at `fsW`. -/
theorem C5_host_snapshot_best_effort_witness :
    (hostRes { fsW with nettcp := none }).NetworkConnections = 0 ∧
    (hostRes fsW).MemoryTotal = 0 ∧ (hostRes fsW).MemoryUsedPct = 0 ∧
    (hostRes { fsW with nettcp := none }).LoadAverage1 = (hostRes fsW).LoadAverage1 := by
  obtain ⟨w1, _, _, w4, _, _, _, _, _, _, _, _, _, wM, _⟩ :=
    C5_host_snapshot_best_effort fsW
  exact ⟨w1, (wM rfl).1, (wM rfl).2.2.2, w4⟩

lemma memAvail_not_memTotal {s : String} (h : goHasPre "MemAvailable:" s = true) :
    goHasPre "MemTotal:" s = false := by
  unfold goHasPre at h ⊢
  obtain ⟨t, ht⟩ := List.isPrefixOf_iff_prefix.mp h
  rw [← ht]
  rfl

/-- Invariant of the `/proc/meminfo` line scan: if every `MemTotal:`-led
line carries `T` and every `MemAvailable:`-led line carries `A`, then the
fold ends at `T*1024` / `A*1024` as soon as such a line occurs at all,
and leaves the accumulator component untouched when none occurs — lines
led by neither key (MemFree, Buffers, the blank line before EOF, …) never
touch the accumulator. -/
lemma memScan_foldl (T A : Int) (L : List String) :
    ∀ acc : Int × Int,
    (∀ l ∈ L, goHasPre "MemTotal:" l = true → memFieldValue l = some T) →
    (∀ l ∈ L, goHasPre "MemAvailable:" l = true → memFieldValue l = some A) →
    (((∃ l ∈ L, goHasPre "MemTotal:" l = true) →
        (L.foldl memScanLine acc).1 = T * 1024) ∧
     ((∀ l ∈ L, goHasPre "MemTotal:" l = false) →
        (L.foldl memScanLine acc).1 = acc.1) ∧
     ((∃ l ∈ L, goHasPre "MemAvailable:" l = true) →
        (L.foldl memScanLine acc).2 = A * 1024) ∧
     ((∀ l ∈ L, goHasPre "MemAvailable:" l = false) →
        (L.foldl memScanLine acc).2 = acc.2)) := by
  induction L with
  | nil =>
    intro acc _ _
    simp
  | cons l L ih =>
    intro acc hT hA
    obtain ⟨i1, i2, i3, i4⟩ := ih (memScanLine acc l)
      (fun x hx => hT x (List.mem_cons_of_mem l hx))
      (fun x hx => hA x (List.mem_cons_of_mem l hx))
    rw [List.foldl_cons]
    by_cases ht : goHasPre "MemTotal:" l = true
    · have hna : goHasPre "MemAvailable:" l = false := by
        cases hb : goHasPre "MemAvailable:" l with
        | false => rfl
        | true =>
          rw [memAvail_not_memTotal hb] at ht
          simp at ht
      have hstep : memScanLine acc l = (T * 1024, acc.2) := by
        unfold memScanLine
        rw [ht]
        simp [hT l (List.mem_cons_self l L) ht]
      refine ⟨?_, ?_, ?_, ?_⟩
      · intro _
        by_cases hEx : ∃ x ∈ L, goHasPre "MemTotal:" x = true
        · exact i1 hEx
        · have hAll : ∀ x ∈ L, goHasPre "MemTotal:" x = false := by
            intro x hx
            cases hb : goHasPre "MemTotal:" x with
            | false => rfl
            | true => exact absurd ⟨x, hx, hb⟩ hEx
          rw [i2 hAll, hstep]
      · intro hAll
        exact absurd (hAll l (List.mem_cons_self l L)) (by simp [ht])
      · intro hEx
        rcases hEx with ⟨x, hx, hb⟩
        rcases List.mem_cons.mp hx with rfl | hx'
        · rw [hna] at hb
          simp at hb
        · exact i3 ⟨x, hx', hb⟩
      · intro hAll
        rw [i4 (fun x hx => hAll x (List.mem_cons_of_mem l hx)), hstep]
    · have ht' : goHasPre "MemTotal:" l = false := by
        cases hb : goHasPre "MemTotal:" l with
        | false => rfl
        | true => exact absurd hb ht
      by_cases ha : goHasPre "MemAvailable:" l = true
      · have hstep : memScanLine acc l = (acc.1, A * 1024) := by
          unfold memScanLine
          rw [ht', ha]
          simp [hA l (List.mem_cons_self l L) ha]
        refine ⟨?_, ?_, ?_, ?_⟩
        · intro hEx
          rcases hEx with ⟨x, hx, hb⟩
          rcases List.mem_cons.mp hx with rfl | hx'
          · rw [ht'] at hb
            simp at hb
          · exact i1 ⟨x, hx', hb⟩
        · intro hAll
          rw [i2 (fun x hx => hAll x (List.mem_cons_of_mem l hx)), hstep]
        · intro _
          by_cases hEx : ∃ x ∈ L, goHasPre "MemAvailable:" x = true
          · exact i3 hEx
          · have hAll : ∀ x ∈ L, goHasPre "MemAvailable:" x = false := by
              intro x hx
              cases hb : goHasPre "MemAvailable:" x with
              | false => rfl
              | true => exact absurd ⟨x, hx, hb⟩ hEx
            rw [i4 hAll, hstep]
        · intro hAll
          exact absurd (hAll l (List.mem_cons_self l L)) (by simp [ha])
      · have ha' : goHasPre "MemAvailable:" l = false := by
          cases hb : goHasPre "MemAvailable:" l with
          | false => rfl
          | true => exact absurd hb ha
        have hstep : memScanLine acc l = acc := by
          unfold memScanLine
          rw [ht', ha']
          simp
        refine ⟨?_, ?_, ?_, ?_⟩
        · intro hEx
          rcases hEx with ⟨x, hx, hb⟩
          rcases List.mem_cons.mp hx with rfl | hx'
          · rw [ht'] at hb
            simp at hb
          · exact i1 ⟨x, hx', hb⟩
        · intro hAll
          rw [i2 (fun x hx => hAll x (List.mem_cons_of_mem l hx)), hstep]
        · intro hEx
          rcases hEx with ⟨x, hx, hb⟩
          rcases List.mem_cons.mp hx with rfl | hx'
          · rw [ha'] at hb
            simp at hb
          · exact i3 ⟨x, hx', hb⟩
        · intro hAll
          rw [i4 (fun x hx => hAll x (List.mem_cons_of_mem l hx)), hstep]

/-- C4: for every readable `/proc/meminfo` whose `MemTotal:` line carries
`T` kilobytes and whose `MemAvailable:` line carries `A` kilobytes
(stated as: a `MemTotal:`-led line exists and every one carries `T`,
likewise for `MemAvailable:` and `A` — any number of other lines,
anywhere in the file, is allowed), `GetHostSystemInfo` reports
`MemoryTotal = T*1024`, `MemoryAvailable = A*1024`,
`MemoryUsed = (T-A)*1024` bytes and, for `T > 0`,
`MemoryUsedPct = 100*(T-A)/T`. -/
theorem C4_meminfo_computation (fs : ProcFS) (m : String) (T A : Int)
    (hm : fs.meminfo = some m)
    (hex_t : ∃ l ∈ goLines m, goHasPre "MemTotal:" l = true)
    (hall_t : ∀ l ∈ goLines m, goHasPre "MemTotal:" l = true →
        memFieldValue l = some T)
    (hex_a : ∃ l ∈ goLines m, goHasPre "MemAvailable:" l = true)
    (hall_a : ∀ l ∈ goLines m, goHasPre "MemAvailable:" l = true →
        memFieldValue l = some A) :
    (hostRes fs).MemoryTotal = T * 1024 ∧
    (hostRes fs).MemoryAvailable = A * 1024 ∧
    (hostRes fs).MemoryUsed = (T - A) * 1024 ∧
    (0 < T → (hostRes fs).MemoryUsedPct = 100 * ((T : ℚ) - (A : ℚ)) / (T : ℚ)) := by
  obtain ⟨uu, us, eU⟩ := applyUptime_shape fs.uptime hostZero
  obtain ⟨a1, a5, a15, eL⟩ :=
    applyLoad_shape fs.loadavg (applyUptime fs.uptime hostZero)
  have hbaseT : (applyLoad fs.loadavg (applyUptime fs.uptime hostZero)).MemoryTotal
      = 0 := by
    rw [eL, eU]
    rfl
  have hbaseA : (applyLoad fs.loadavg (applyUptime fs.uptime hostZero)).MemoryAvailable
      = 0 := by
    rw [eL, eU]
    rfl
  obtain ⟨s1, _, s3, _⟩ :=
    memScan_foldl T A (goLines m) (0 : Int × Int) hall_t hall_a
  have hscan : (goLines m).foldl memScanLine (0 : Int × Int)
      = (T * 1024, A * 1024) :=
    Prod.ext_iff.mpr ⟨s1 hex_t, s3 hex_a⟩
  have hmemT : (applyMem fs.meminfo
      (applyLoad fs.loadavg (applyUptime fs.uptime hostZero))).MemoryTotal
      = T * 1024 := by
    rw [hm]
    simp [applyMem, hbaseT, hbaseA, hscan]
  have hmemA : (applyMem fs.meminfo
      (applyLoad fs.loadavg (applyUptime fs.uptime hostZero))).MemoryAvailable
      = A * 1024 := by
    rw [hm]
    simp [applyMem, hbaseT, hbaseA, hscan]
  have hmemU : (applyMem fs.meminfo
      (applyLoad fs.loadavg (applyUptime fs.uptime hostZero))).MemoryUsed
      = T * 1024 - A * 1024 := by
    rw [hm]
    simp [applyMem, hbaseT, hbaseA, hscan]
  have hmemP : (applyMem fs.meminfo
      (applyLoad fs.loadavg (applyUptime fs.uptime hostZero))).MemoryUsedPct
      = if (0 : Int) < T * 1024
          then ((T * 1024 - A * 1024 : Int) : ℚ) / ((T * 1024 : Int) : ℚ) * 100
          else (applyLoad fs.loadavg (applyUptime fs.uptime hostZero)).MemoryUsedPct := by
    rw [hm]
    simp [applyMem, hbaseT, hbaseA, hscan]
  obtain ⟨nc, eN⟩ := applyNet_shape fs.nettcp
    { applyMem fs.meminfo (applyLoad fs.loadavg (applyUptime fs.uptime hostZero)) with
        CPUCores := fs.numCPU }
  have pT : (hostRes fs).MemoryTotal
      = (applyMem fs.meminfo
          (applyLoad fs.loadavg (applyUptime fs.uptime hostZero))).MemoryTotal := by
    show (applyNet fs.nettcp
        { applyMem fs.meminfo (applyLoad fs.loadavg (applyUptime fs.uptime hostZero)) with
            CPUCores := fs.numCPU }).MemoryTotal = _
    rw [eN]
  have pA : (hostRes fs).MemoryAvailable
      = (applyMem fs.meminfo
          (applyLoad fs.loadavg (applyUptime fs.uptime hostZero))).MemoryAvailable := by
    show (applyNet fs.nettcp
        { applyMem fs.meminfo (applyLoad fs.loadavg (applyUptime fs.uptime hostZero)) with
            CPUCores := fs.numCPU }).MemoryAvailable = _
    rw [eN]
  have pU : (hostRes fs).MemoryUsed
      = (applyMem fs.meminfo
          (applyLoad fs.loadavg (applyUptime fs.uptime hostZero))).MemoryUsed := by
    show (applyNet fs.nettcp
        { applyMem fs.meminfo (applyLoad fs.loadavg (applyUptime fs.uptime hostZero)) with
            CPUCores := fs.numCPU }).MemoryUsed = _
    rw [eN]
  have pP : (hostRes fs).MemoryUsedPct
      = (applyMem fs.meminfo
          (applyLoad fs.loadavg (applyUptime fs.uptime hostZero))).MemoryUsedPct := by
    show (applyNet fs.nettcp
        { applyMem fs.meminfo (applyLoad fs.loadavg (applyUptime fs.uptime hostZero)) with
            CPUCores := fs.numCPU }).MemoryUsedPct = _
    rw [eN]
  refine ⟨by rw [pT, hmemT], by rw [pA, hmemA], by rw [pU, hmemU]; ring, ?_⟩
  intro hT
  rw [pP, hmemP, if_pos (by positivity : (0 : Int) < T * 1024)]
  have hTQ : (T : ℚ) ≠ 0 := by
    exact_mod_cast hT.ne'
  push_cast
  field_simp
  ring

/-- Concrete `/proc` state for the C4 witness: a meminfo file in the
spec's synthetic shape (`MemTotal: 1000 kB`, `MemAvailable: 400 kB`)
with further unrelated lines and a trailing newline, as a real
`/proc/meminfo` has. -/
def fsMem : ProcFS :=
  { uptime := none, loadavg := none,
    meminfo := some
      "MemTotal: 1000 kB\nMemFree: 300 kB\nMemAvailable: 400 kB\nBuffers: 10 kB\n",
    nettcp := none, numCPU := 1 }

/-- Witness for C4: `MemTotal: 1000 kB` / `MemAvailable: 400 kB` yield
`MemoryUsed = 614400` bytes and `MemoryUsedPct = 60`. -/
theorem C4_meminfo_computation_witness :
    (hostRes fsMem).MemoryUsed = 614400 ∧ (hostRes fsMem).MemoryUsedPct = 60 := by
  obtain ⟨h1, h2, h3, h4⟩ := C4_meminfo_computation fsMem
    "MemTotal: 1000 kB\nMemFree: 300 kB\nMemAvailable: 400 kB\nBuffers: 10 kB\n"
    1000 400 rfl (by decide) (by decide) (by decide) (by decide)
  constructor
  · rw [h3]
    norm_num
  · rw [h4 (by norm_num)]
    norm_num

/-- The `/api/system/host` handler (`api.GetHostSystemInfo`): on error it
would answer 500 with `"Failed to get host info: "` plus the error text,
on success 200 with the JSON-encoded snapshot (represented here by the
snapshot itself). -/
def GetHostSystemInfoHandler (fs : ProcFS) : Nat × (String ⊕ HostSystemInfo) :=
  match GetHostSystemInfo fs with
  | (_, some e) => (500, Sum.inl ("Failed to get host info: " ++ e))
  | (info, none) => (200, Sum.inr info)

/-- C9: `GetHostSystemInfo` ends in `return hostInfo, nil` on every path,
so its error result is always `nil` and the handler's 500 branch is
unreachable: the endpoint always answers 200 with the snapshot. -/
theorem C9_host_info_never_errors (fs : ProcFS) :
    (GetHostSystemInfo fs).2 = none ∧
    GetHostSystemInfoHandler fs = (200, Sum.inr (hostRes fs)) := by
  exact ⟨rfl, rfl⟩

/-! ## Event relay loops
(`StreamSystemEvents` in src/internal/service/docker.go and
`HandleWebSocket` in src/internal/api/handlers.go) -/

/-- One firing of the three-way select in `HandleWebSocket`'s relay loop:
an event from the daemon channel together with whether the
`conn.WriteJSON` call for it succeeds, a value on the daemon's error
channel, or the context being done.  (A `nil` received from a closed
error channel is outside this model; error-channel values here are real
errors.) -/
inductive WsFire
  | ev (e : String) (writeOk : Bool)
  | errc (er : String)
  | cancel
deriving DecidableEq

/-- Why the WebSocket relay loop returned. -/
inductive WsExit
  | writeFail
  | errExit (er : String)
  | cancelExit
deriving DecidableEq

/-- The relay loop of `HandleWebSocket` run against a trace of select
firings: `none` while the trace leaves the loop still waiting, otherwise
the events written (one JSON frame each, in order) and the reason the
loop returned — a failed `WriteJSON` is logged and ends the loop with no
retry. -/
def wsRelay : List WsFire → Option (List String × WsExit)
  | [] => none
  | WsFire.ev e true :: rest =>
    match wsRelay rest with
    | none => none
    | some (ws, x) => some (e :: ws, x)
  | WsFire.ev _ false :: _ => some ([], WsExit.writeFail)
  | WsFire.errc er :: _ => some ([], WsExit.errExit er)
  | WsFire.cancel :: _ => some ([], WsExit.cancelExit)

/-- One firing of the three-way select in `StreamSystemEvents`. -/
inductive HttpFire
  | ev (e : String) (writeOk : Bool)
  | errc (er : String)
  | cancel
deriving DecidableEq

/-- Why `StreamSystemEvents` returned: the received error value
(`return err`) or cancellation (`return nil`). -/
inductive HttpExit
  | errExit (er : String)
  | cancelExit
deriving DecidableEq

/-- The relay loop of `StreamSystemEvents`: the `encoder.Encode` result is
discarded, so the loop continues even when a write fails — the event is
recorded as encoded-and-flushed regardless. -/
def httpRelay : List HttpFire → Option (List String × HttpExit)
  | [] => none
  | HttpFire.ev e _ :: rest =>
    match httpRelay rest with
    | none => none
    | some (ws, x) => some (e :: ws, x)
  | HttpFire.errc er :: _ => some ([], HttpExit.errExit er)
  | HttpFire.cancel :: _ => some ([], HttpExit.cancelExit)

/-- A firing that keeps the WebSocket loop going. -/
def wsOk (f : WsFire) : Bool :=
  match f with
  | WsFire.ev _ true => true
  | _ => false

/-- The events of an all-successful WebSocket trace segment. -/
def wsEvents (l : List WsFire) : List String :=
  l.filterMap (fun f => match f with | WsFire.ev e true => some e | _ => none)

/-- A firing that keeps the HTTP loop going. -/
def httpEv (f : HttpFire) : Bool :=
  match f with
  | HttpFire.ev _ _ => true
  | _ => false

/-- The events of an event-only HTTP trace segment. -/
def httpEvents (l : List HttpFire) : List String :=
  l.filterMap (fun f => match f with | HttpFire.ev e _ => some e | _ => none)

lemma wsRelay_append (pre : List WsFire) (h : ∀ f ∈ pre, wsOk f = true)
    (tail : List WsFire) :
    wsRelay (pre ++ tail)
      = match wsRelay tail with
        | none => none
        | some (ws, x) => some (wsEvents pre ++ ws, x) := by
  induction pre with
  | nil =>
    simp [wsEvents]
    rcases wsRelay tail with _ | ⟨ws, x⟩ <;> rfl
  | cons f fs ih =>
    have hf : wsOk f = true := h f (List.mem_cons_self f fs)
    have ih' := ih (fun g hg => h g (List.mem_cons_of_mem f hg))
    rcases f with ⟨e, b⟩ | er | _
    · cases b with
      | false => simp [wsOk] at hf
      | true =>
        rw [List.cons_append, wsRelay, ih']
        rcases wsRelay tail with _ | ⟨ws, x⟩ <;> simp [wsEvents]
    · simp [wsOk] at hf
    · simp [wsOk] at hf

lemma httpRelay_append (pre : List HttpFire) (h : ∀ f ∈ pre, httpEv f = true)
    (tail : List HttpFire) :
    httpRelay (pre ++ tail)
      = match httpRelay tail with
        | none => none
        | some (ws, x) => some (httpEvents pre ++ ws, x) := by
  induction pre with
  | nil =>
    simp [httpEvents]
    rcases httpRelay tail with _ | ⟨ws, x⟩ <;> rfl
  | cons f fs ih =>
    have hf : httpEv f = true := h f (List.mem_cons_self f fs)
    have ih' := ih (fun g hg => h g (List.mem_cons_of_mem f hg))
    rcases f with ⟨e, b⟩ | er | _
    · rw [List.cons_append]
      cases b <;> rw [httpRelay, ih'] <;>
        rcases httpRelay tail with _ | ⟨ws, x⟩ <;> simp [httpEvents]
    · simp [httpEv] at hf
    · simp [httpEv] at hf

/-- C6 (amended): the WebSocket relay loop keeps waiting while events
arrive and write out successfully, and terminates exactly on a value from
the daemon's error channel (log and return, carrying that error), the
cancellation signal (return, no error), or a failed write (log and
return, no retry); every event received before the exit is written once,
in order.  The chunked-HTTP relay loop (`StreamSystemEvents`) likewise
terminates on the error channel (returning the received error) or
cancellation (returning no error) — but it ignores the result of writing
to the sink, so a failed write does NOT terminate it (see the
counterexample). -/
theorem C6_relay_loop_termination :
    (∀ (pre : List WsFire), (∀ f ∈ pre, wsOk f = true) →
      (∀ er rest, wsRelay (pre ++ WsFire.errc er :: rest)
          = some (wsEvents pre, WsExit.errExit er)) ∧
      (∀ rest, wsRelay (pre ++ WsFire.cancel :: rest)
          = some (wsEvents pre, WsExit.cancelExit)) ∧
      (∀ e rest, wsRelay (pre ++ WsFire.ev e false :: rest)
          = some (wsEvents pre, WsExit.writeFail)) ∧
      (wsRelay pre = none)) ∧
    (∀ (pre : List HttpFire), (∀ f ∈ pre, httpEv f = true) →
      (∀ er rest, httpRelay (pre ++ HttpFire.errc er :: rest)
          = some (httpEvents pre, HttpExit.errExit er)) ∧
      (∀ rest, httpRelay (pre ++ HttpFire.cancel :: rest)
          = some (httpEvents pre, HttpExit.cancelExit)) ∧
      (httpRelay pre = none)) := by
  constructor
  · intro pre h
    refine ⟨?_, ?_, ?_, ?_⟩
    · intro er rest
      rw [wsRelay_append pre h]
      simp [wsRelay]
    · intro rest
      rw [wsRelay_append pre h]
      simp [wsRelay]
    · intro e rest
      rw [wsRelay_append pre h]
      simp [wsRelay]
    · have := wsRelay_append pre h []
      simpa [wsRelay] using this
  · intro pre h
    refine ⟨?_, ?_, ?_⟩
    · intro er rest
      rw [httpRelay_append pre h]
      simp [httpRelay]
    · intro rest
      rw [httpRelay_append pre h]
      simp [httpRelay]
    · have := httpRelay_append pre h []
      simpa [httpRelay] using this

/-- C6 counterexample: in `StreamSystemEvents` a failed write does not
terminate the loop — after the failed `Encode` the loop is back in the
select, still waiting (result `none`), and it later exits only through
the error channel. -/
theorem C6_http_write_failure_not_fatal :
    httpRelay [HttpFire.ev "e1" false] = none ∧
    httpRelay [HttpFire.ev "e1" false, HttpFire.errc "daemon gone"]
      = some (["e1"], HttpExit.errExit "daemon gone") := by
  exact ⟨rfl, rfl⟩

/-- Witness for C6 on concrete traces. -/
theorem C6_relay_loop_termination_witness :
    wsRelay [WsFire.ev "a" true, WsFire.errc "err"]
      = some (["a"], WsExit.errExit "err") ∧
    wsRelay [WsFire.ev "a" true, WsFire.ev "b" false]
      = some (["a"], WsExit.writeFail) ∧
    httpRelay [HttpFire.ev "a" true, HttpFire.cancel]
      = some (["a"], HttpExit.cancelExit) := by
  obtain ⟨hws, hhttp⟩ := C6_relay_loop_termination
  obtain ⟨w1, w2, w3, w4⟩ := hws [WsFire.ev "a" true] (by decide)
  obtain ⟨h1, h2, h3⟩ := hhttp [HttpFire.ev "a" true] (by decide)
  refine ⟨?_, ?_, ?_⟩
  · have := w1 "err" []
    simpa [wsEvents] using this
  · have := w3 "b" []
    simpa [wsEvents] using this
  · have := h2 []
    simpa [httpEvents] using this

/-! ## Browser event dispatcher cooldown (static/app.js, `smartRefresh`) -/

/-- `this.refreshCooldown = 5000` (milliseconds). -/
def refreshCooldownMs : Int := 5000

/-- The cooldown check at the top of `smartRefresh`: whether the refresh
body runs, and the resulting `lastRefreshTime` (updated to `now` exactly
when the gate passes). -/
def smartRefreshGate (last now : Int) : Bool × Int :=
  if now - last < refreshCooldownMs then (false, last) else (true, now)

/-- The guard in `handleDockerEvent` before `smartRefresh` is called:
not on the events tab, and a qualifying event type. -/
def qualifiesForRefresh (tab ty : String) : Bool :=
  !(tab == "events") &&
    (ty == "container" || ty == "image" || ty == "network" || ty == "volume")

/-- A sequence of `(timestamp, event type)` pairs run through
`handleDockerEvent`'s refresh path: the count of `smartRefresh`
executions that passed the cooldown gate, and the final
`lastRefreshTime`. -/
def dispatchEvents (tab : String) : List (Int × String) → Int → Nat × Int
  | [], last => (0, last)
  | (t, ty) :: rest, last =>
    if qualifiesForRefresh tab ty then
      let g := smartRefreshGate last t
      let r := dispatchEvents tab rest g.2
      ((if g.1 then 1 else 0) + r.1, r.2)
    else dispatchEvents tab rest last

lemma dispatchEvents_nil (tab : String) (last : Int) :
    dispatchEvents tab [] last = (0, last) := rfl

lemma dispatchEvents_cons (tab : String) (t : Int) (ty : String)
    (rest : List (Int × String)) (last : Int) :
    dispatchEvents tab ((t, ty) :: rest) last
      = if qualifiesForRefresh tab ty then
          ((if (smartRefreshGate last t).1 then 1 else 0)
              + (dispatchEvents tab rest (smartRefreshGate last t).2).1,
           (dispatchEvents tab rest (smartRefreshGate last t).2).2)
        else dispatchEvents tab rest last := rfl

/-- C7: a qualifying event processed off the events tab is dropped by the
cooldown gate iff it arrives strictly less than 5000 ms after the last
gate-passing event; in particular three qualifying events at `t`,
`t+1s`, `t+6s` (the first one outside the window) yield exactly two
refreshes, at `t` and `t+6s`. -/
theorem C7_cooldown_gate (tab ty : String) (last t t0 l0 : Int) :
    (qualifiesForRefresh tab ty = true →
      dispatchEvents tab [(t, ty)] last
        = (if t - last < 5000 then 0 else 1,
           if t - last < 5000 then last else t)) ∧
    (5000 ≤ t0 - l0 →
      dispatchEvents "dashboard"
          [(t0, "container"), (t0 + 1000, "container"), (t0 + 6000, "container")] l0
        = (2, t0 + 6000)) := by
  constructor
  · intro hq
    rw [dispatchEvents_cons, if_pos hq]
    by_cases hc : t - last < 5000
    · rw [smartRefreshGate, refreshCooldownMs, if_pos hc, if_pos hc, if_pos hc]
      rfl
    · rw [smartRefreshGate, refreshCooldownMs, if_neg hc, if_neg hc, if_neg hc]
      rfl
  · intro h0
    have hq : qualifiesForRefresh "dashboard" "container" = true := rfl
    rw [dispatchEvents_cons, if_pos hq,
      smartRefreshGate, refreshCooldownMs, if_neg (by omega : ¬ t0 - l0 < 5000)]
    rw [dispatchEvents_cons, if_pos hq,
      smartRefreshGate, refreshCooldownMs,
      if_pos (by omega : t0 + 1000 - t0 < 5000)]
    rw [dispatchEvents_cons, if_pos hq,
      smartRefreshGate, refreshCooldownMs,
      if_neg (by omega : ¬ t0 + 6000 - t0 < 5000)]
    rw [dispatchEvents_nil]
    rfl

/-- Witness for C7: concrete qualifying events at 100000 ms, 101000 ms
and 106000 ms with the gate last passed at 0. -/
theorem C7_cooldown_gate_witness :
    dispatchEvents "dashboard"
        [(100000, "container"), (101000, "container"), (106000, "container")] 0
      = (2, 106000) ∧
    dispatchEvents "dashboard" [(7000, "container")] 3000 = (0, 3000) := by
  obtain ⟨h1, h2⟩ := C7_cooldown_gate "dashboard" "container" 3000 7000 100000 0
  constructor
  · exact h2 (by norm_num)
  · have := h1 rfl
    simpa using this

/-! ## Gateway error responses (src/internal/api/handlers.go) -/

/-- `api.GetContainers`: `http.Error(w, err.Error(), 500)` on failure
(the body is the message passed to `http.Error`; its trailing newline is
abstracted away), 200 with the JSON list on success. -/
def GetContainersHandler (res : Except String (List ContainerRec)) :
    Nat × (String ⊕ List ContainerRec) :=
  match res with
  | Except.error e => (500, Sum.inl e)
  | Except.ok cs => (200, Sum.inr cs)

/-- `api.GetSystemdServices`:
`http.Error(w, fmt.Sprintf("Failed to get services: %v", err), 500)` on
failure, 200 with the JSON list on success. -/
def GetSystemdServicesHandler (res : Except String (List SystemdService)) :
    Nat × (String ⊕ List SystemdService) :=
  match res with
  | Except.error e => (500, Sum.inl ("Failed to get services: " ++ e))
  | Except.ok ss => (200, Sum.inr ss)

/-- C8 counterexample: the systemd-services handler does not respond with
a body equal to the underlying error's text — it prepends a fixed context
message. -/
theorem C8_service_error_body_not_raw :
    (GetSystemdServicesHandler (Except.error "boom")).1 = 500 ∧
    (GetSystemdServicesHandler (Except.error "boom")).2 ≠ Sum.inl "boom" ∧
    (GetSystemdServicesHandler (Except.error "boom")).2
      = Sum.inl "Failed to get services: boom" := by
  exact ⟨rfl, by decide, rfl⟩

/-- C8 (amended): every failed request is answered with HTTP 500 and the
handler returns normally (the process does not exit); the body is the
underlying error's text for the Docker handlers
(`GetContainers`-style, `http.Error(w, err.Error(), 500)`), while the
systemd/host handlers prepend a fixed context message
(`"Failed to get services: "` etc.) to the error text. -/
theorem C8_error_responses (e : String) (cs : List ContainerRec)
    (ss : List SystemdService) :
    GetContainersHandler (Except.error e) = (500, Sum.inl e) ∧
    GetSystemdServicesHandler (Except.error e)
      = (500, Sum.inl ("Failed to get services: " ++ e)) ∧
    GetContainersHandler (Except.ok cs) = (200, Sum.inr cs) ∧
    GetSystemdServicesHandler (Except.ok ss) = (200, Sum.inr ss) := by
  exact ⟨rfl, rfl, rfl, rfl⟩

/-! ## Container detail (`GetContainerDetail` in
src/internal/service/docker.go) -/

/-- The slice of `types.ContainerJSON.State` the function reads. -/
structure ContainerState where
  Running : Bool
deriving DecidableEq

/-- The slice of `types.ContainerJSON` the function reads. -/
structure ContainerJSONRec where
  State : ContainerState
deriving DecidableEq

/-- `models.ContainerDetail`; the stats payload is irrelevant to the
claims and is modelled as an opaque `Nat` token. -/
structure ContainerDetail where
  Container : ContainerJSONRec
  Stats : Option Nat
deriving DecidableEq

/-- `service.GetContainerDetail`, with the daemon interactions as inputs:
`inspect` is the `ContainerInspect` result, `stats` the `ContainerStats`
response body, `decodeStats` the JSON decode of that body.  Stats are
fetched only for a running container; a stats or decode failure is
swallowed, leaving `Stats` nil. -/
def GetContainerDetail (inspect : Except String ContainerJSONRec)
    (stats : Except String Nat) (decodeStats : Nat → Except String Nat) :
    Except String ContainerDetail :=
  match inspect with
  | Except.error e => Except.error e
  | Except.ok cj =>
    if cj.State.Running then
      match stats with
      | Except.ok body =>
        match decodeStats body with
        | Except.ok sj => Except.ok { Container := cj, Stats := some sj }
        | Except.error _ => Except.ok { Container := cj, Stats := none }
      | Except.error _ => Except.ok { Container := cj, Stats := none }
    else Except.ok { Container := cj, Stats := none }

/-- C10: whenever inspection succeeds `GetContainerDetail` returns the
detail without error; a failed stats retrieval or decode leaves `Stats`
nil instead of failing the request; and for a non-running container the
result never depends on the stats inputs (stats are not attempted) and
`Stats` is nil. -/
theorem C10_container_detail_stats_best_effort :
    (∀ cj stats decodeStats, ∃ d,
      GetContainerDetail (Except.ok cj) stats decodeStats = Except.ok d ∧
      d.Container = cj) ∧
    (∀ cj e decodeStats,
      GetContainerDetail (Except.ok cj) (Except.error e) decodeStats
        = Except.ok { Container := cj, Stats := none }) ∧
    (∀ cj b decodeStats e, decodeStats b = Except.error e →
      GetContainerDetail (Except.ok cj) (Except.ok b) decodeStats
        = Except.ok { Container := cj, Stats := none }) ∧
    (∀ cj stats decodeStats, cj.State.Running = false →
      GetContainerDetail (Except.ok cj) stats decodeStats
        = Except.ok { Container := cj, Stats := none }) := by
  refine ⟨?_, ?_, ?_, ?_⟩
  · intro cj stats decodeStats
    by_cases hr : cj.State.Running
    · rcases stats with e | body
      · exact ⟨{ Container := cj, Stats := none },
          by simp [GetContainerDetail, hr], rfl⟩
      · rcases hd : decodeStats body with e | sj
        · exact ⟨{ Container := cj, Stats := none },
            by simp [GetContainerDetail, hr, hd], rfl⟩
        · exact ⟨{ Container := cj, Stats := some sj },
            by simp [GetContainerDetail, hr, hd], rfl⟩
    · exact ⟨{ Container := cj, Stats := none },
        by simp [GetContainerDetail, hr], rfl⟩
  · intro cj e decodeStats
    by_cases hr : cj.State.Running <;> simp [GetContainerDetail, hr]
  · intro cj b decodeStats e hd
    by_cases hr : cj.State.Running <;> simp [GetContainerDetail, hr, hd]
  · intro cj stats decodeStats hr
    simp [GetContainerDetail, hr]

/-- Witness for C10: a running container whose stats decode fails, and a
stopped container with healthy stats inputs — both yield a successful
detail with nil stats. -/
theorem C10_container_detail_stats_best_effort_witness :
    GetContainerDetail (Except.ok { State := { Running := true } })
        (Except.ok 0) (fun _ => Except.error "bad json")
      = Except.ok { Container := { State := { Running := true } }, Stats := none } ∧
    GetContainerDetail (Except.ok { State := { Running := false } })
        (Except.ok 0) (fun b => Except.ok b)
      = Except.ok { Container := { State := { Running := false } }, Stats := none } := by
  obtain ⟨_, _, h3, h4⟩ := C10_container_detail_stats_best_effort
  exact ⟨h3 _ 0 _ "bad json" rfl, h4 _ (Except.ok 0) _ rfl⟩

end DockerManager
